import Mathlib

/-!
Verification development for the `technical-indicators` repository (package `talib`).

The package computes technical-analysis indicators over financial time series.
Its numeric kernel is pandas: series of IEEE floats where missing data is NaN.
We embed a pandas numeric series as `List (Option α)` over a linear ordered
field `α` (instantiated at `ℚ` or `ℝ` in concrete statements): `none` plays the
role of NaN, and every arithmetic operation propagates `none` exactly as float
arithmetic propagates NaN.  Division by a (defined) zero is also mapped to
`none`; in the code paths the claims exercise, the only divisions whose divisor
can be zero are of the form 0/0, which is NaN in floats as well.  Rounding of
float arithmetic is abstracted: arithmetic is exact field arithmetic.

A pandas DataFrame becomes `DataFrame α`: a time index together with named
columns of `Option α` values.  The dispatch layer (`talib/base.py`: the
`Indicator` taxonomy, the `CONCRETE_INDICATORS` registry and the `TA` facade)
is embedded as total functions returning `Except TAError _`, with one error
constructor per distinct raise site.
-/

set_option linter.unusedSectionVars false
set_option linter.unusedVariables false

namespace Talib

/-! ## Scalar Option arithmetic (NaN-propagating, mirroring float/NaN rules) -/

variable {α : Type} [LinearOrderedField α]

/-- NaN-propagating addition. -/
def optAdd : Option α → Option α → Option α
  | some a, some b => some (a + b)
  | _, _ => none

/-- NaN-propagating subtraction. -/
def optSub : Option α → Option α → Option α
  | some a, some b => some (a - b)
  | _, _ => none

/-- NaN-propagating multiplication. -/
def optMul : Option α → Option α → Option α
  | some a, some b => some (a * b)
  | _, _ => none

/-- NaN-propagating division; a defined zero divisor also yields `none`
(in the embedded code this case only arises as 0/0, which is NaN in floats). -/
def optDiv : Option α → Option α → Option α
  | some a, some b => if b = 0 then none else some (a / b)
  | _, _ => none

/-- NaN-propagating absolute value. -/
def optAbs : Option α → Option α
  | some a => some |a|
  | none => none

/-- NaN-propagating negation (pandas `-x`). -/
def optNeg : Option α → Option α
  | some a => some (-a)
  | none => none

/-- Strict `>` comparison as pandas evaluates it on floats: any comparison
with NaN is `false`. -/
def optGtB : Option α → Option α → Bool
  | some a, some b => decide (b < a)
  | _, _ => false

/-- Strict `<` comparison, `false` when either side is NaN. -/
def optLtB : Option α → Option α → Bool
  | some a, some b => decide (a < b)
  | _, _ => false

/-! ## Series combinators (pandas rolling / ewm / diff / pointwise ops) -/

/-- All-or-nothing sequencing of a window: `some` of the values when every
entry is defined, `none` as soon as the window contains a NaN.  This mirrors
pandas rolling aggregations with the default `min_periods = window`. -/
def seqOpt : List (Option α) → Option (List α)
  | [] => some []
  | none :: _ => none
  | some a :: rest => (seqOpt rest).map (a :: ·)

/-- One cell of a rolling aggregation of window `w` at position `i`:
`none` while fewer than `w` observations are available, otherwise the
aggregate `f` of the `w`-row window ending at `i` (NaN if the window
contains a NaN). -/
def rollingCell (f : List α → Option α) (w : Nat) (xs : List (Option α)) (i : Nat) : Option α :=
  if i + 1 < w ∨ w = 0 then none
  else
    match seqOpt ((xs.drop (i + 1 - w)).take w) with
    | none => none
    | some l => f l

/-- pandas `Series.rolling(w).agg(f)`: apply `f` to every complete window. -/
def rollingApply (f : List α → Option α) (w : Nat) (xs : List (Option α)) : List (Option α) :=
  (List.range xs.length).map (rollingCell f w xs)

/-- Maximum of a nonempty list of field elements. -/
def listMax : List α → Option α
  | [] => none
  | a :: rest => some (rest.foldl max a)

/-- Minimum of a nonempty list of field elements. -/
def listMin : List α → Option α
  | [] => none
  | a :: rest => some (rest.foldl min a)

/-- pandas `rolling(w).max()`. -/
def rollingMax (w : Nat) (xs : List (Option α)) : List (Option α) :=
  rollingApply listMax w xs

/-- pandas `rolling(w).min()`. -/
def rollingMin (w : Nat) (xs : List (Option α)) : List (Option α) :=
  rollingApply listMin w xs

/-- pandas `rolling(w).sum()`. -/
def rollingSum (w : Nat) (xs : List (Option α)) : List (Option α) :=
  rollingApply (fun l => some l.sum) w xs

/-- pandas `rolling(w).mean()` — the simple average of each complete window. -/
def rollingMean (w : Nat) (xs : List (Option α)) : List (Option α) :=
  rollingApply (fun l => if l.length = 0 then none else some (l.sum / (l.length : α))) w xs

/-- Work loop of pandas `Series.ewm(span=s).mean()` with the default
`adjust=True, ignore_na=False`: running weighted numerator and denominator,
both decayed by `1 - alpha` at every row; a NaN row contributes nothing but
still decays the weights.  The output is NaN until the first defined value. -/
def ewmMeanGo (om : α) : α → α → List (Option α) → List (Option α)
  | _, _, [] => []
  | num, den, x :: rest =>
    let num2 := num * om + (match x with | some v => v | none => 0)
    let den2 := den * om + (match x with | some _ => 1 | none => 0)
    (if den2 = 0 then none else some (num2 / den2)) :: ewmMeanGo om num2 den2 rest

/-- pandas `Series.ewm(span=s).mean()` with `adjust=True` (the default used
throughout the package); `alpha = 2 / (s + 1)`. -/
def ewmMean (span : Nat) (xs : List (Option α)) : List (Option α) :=
  ewmMeanGo (1 - 2 / ((span : α) + 1)) 0 0 xs

/-- pandas `Series.diff(1)`: NaN at position 0, elsewhere `x[i] - x[i-1]`. -/
def diff1 (xs : List (Option α)) : List (Option α) :=
  (List.range xs.length).map (fun i =>
    if i = 0 then none else optSub (xs.getD i none) (xs.getD (i - 1) none))

/-- Pointwise binary operation on two aligned series (pandas arithmetic on
series sharing an index). -/
def map2 (f : Option α → Option α → Option α) : List (Option α) → List (Option α) → List (Option α)
  | x :: xs, y :: ys => f x y :: map2 f xs ys
  | _, _ => []

/-- Pointwise comparison producing the 0/1 volume-gate of `vpn.py`:
`(a ?cmp b).astype(int)` as a field element. -/
def map2Gate (cmp : Option α → Option α → Bool) :
    List (Option α) → List (Option α) → List (Option α)
  | x :: xs, y :: ys => some (if cmp x y then (1 : α) else 0) :: map2Gate cmp xs ys
  | _, _ => []

/-! ## Length and indexing lemmas for the combinators -/

theorem length_rollingApply (f : List α → Option α) (w : Nat) (xs : List (Option α)) :
    (rollingApply f w xs).length = xs.length := by
  simp [rollingApply]

theorem getD_map_range {β : Type} (g : Nat → β) (n i : Nat) (d : β) (h : i < n) :
    ((List.range n).map g).getD i d = g i := by
  simp [List.getD_eq_getElem?_getD, List.getElem?_map, List.getElem?_range, h]

theorem getD_rollingApply (f : List α → Option α) (w : Nat) (xs : List (Option α))
    (i : Nat) (h : i < xs.length) :
    (rollingApply f w xs).getD i none = rollingCell f w xs i :=
  getD_map_range (rollingCell f w xs) xs.length i none h

theorem length_ewmMeanGo (om num den : α) (xs : List (Option α)) :
    (ewmMeanGo om num den xs).length = xs.length := by
  induction xs generalizing num den with
  | nil => rfl
  | cons x rest ih => simp [ewmMeanGo, ih]

theorem length_ewmMean (span : Nat) (xs : List (Option α)) :
    (ewmMean span xs).length = xs.length := by
  simp [ewmMean, length_ewmMeanGo]

theorem length_diff1 (xs : List (Option α)) : (diff1 xs).length = xs.length := by
  simp [diff1]

theorem length_map2 (f : Option α → Option α → Option α) (xs ys : List (Option α)) :
    (map2 f xs ys).length = min xs.length ys.length := by
  induction xs generalizing ys with
  | nil => simp [map2]
  | cons x xs ih =>
    cases ys with
    | nil => simp [map2]
    | cons y ys => simp [map2, ih]; omega

theorem length_map2Gate (cmp : Option α → Option α → Bool) (xs ys : List (Option α)) :
    (map2Gate cmp xs ys).length = min xs.length ys.length := by
  induction xs generalizing ys with
  | nil => simp [map2Gate]
  | cons x xs ih =>
    cases ys with
    | nil => simp [map2Gate]
    | cons y ys => simp [map2Gate, ih]; omega

theorem getD_map2 (f : Option α → Option α → Option α) (xs ys : List (Option α))
    (i : Nat) (hx : i < xs.length) (hy : i < ys.length) :
    (map2 f xs ys).getD i none = f (xs.getD i none) (ys.getD i none) := by
  induction xs generalizing ys i with
  | nil => simp at hx
  | cons x xs ih =>
    cases ys with
    | nil => simp at hy
    | cons y ys =>
      cases i with
      | zero => simp [map2]
      | succ i =>
        simp only [map2, List.getD_cons_succ]
        exact ih ys i (by simpa using hx) (by simpa using hy)

theorem getD_map2Gate (cmp : Option α → Option α → Bool) (xs ys : List (Option α))
    (i : Nat) (hx : i < xs.length) (hy : i < ys.length) :
    (map2Gate cmp xs ys).getD i none =
      some (if cmp (xs.getD i none) (ys.getD i none) then (1 : α) else 0) := by
  induction xs generalizing ys i with
  | nil => simp at hx
  | cons x xs ih =>
    cases ys with
    | nil => simp at hy
    | cons y ys =>
      cases i with
      | zero => simp [map2Gate]
      | succ i =>
        simp only [map2Gate, List.getD_cons_succ]
        exact ih ys i (by simpa using hx) (by simpa using hy)

theorem getD_diff1 (xs : List (Option α)) (i : Nat) (h : i < xs.length) :
    (diff1 xs).getD i none =
      if i = 0 then none else optSub (xs.getD i none) (xs.getD (i - 1) none) :=
  getD_map_range _ xs.length i none h

/-! ## Data model: tables, series, and the untyped inputs the facade accepts -/

/-- A pandas DataFrame: a time index and named columns of NaN-able values.
Row `i` of every column is the observation at `index[i]`. -/
structure DataFrame (α : Type) where
  index : List Nat
  columns : List (String × List (Option α))
  deriving DecidableEq

/-- Column lookup (`df[c]`), `none` when the column is absent. -/
def DataFrame.col? (d : DataFrame α) (c : String) : Option (List (Option α)) :=
  (d.columns.find? (fun p => p.1 == c)).map (·.2)

/-- Column lookup defaulting to the empty column. -/
def DataFrame.colD (d : DataFrame α) (c : String) : List (Option α) :=
  (d.col? c).getD []

/-- The set of column names (`df.columns`). -/
def DataFrame.colNames (d : DataFrame α) : List String :=
  d.columns.map (·.1)

/-- A pandas Series: a named sequence of NaN-able values over a time index. -/
structure PSeries (α : Type) where
  index : List Nat
  values : List (Option α)
  name : String
  deriving DecidableEq

/-- An arbitrary Python value as it reaches an `isinstance` check: a
DataFrame, a Series, or anything else. -/
inductive PyObj (α : Type) where
  | dataframe (d : DataFrame α)
  | pyseries (s : PSeries α)
  | other
  deriving DecidableEq

/-- Lowercasing of a string, character by character. -/
def lowerStr (s : String) : String := String.mk (s.data.map Char.toLower)

/-- Canonicalization of a single column name: case variants of the five
canonical OHLCV names are lowercased, other names pass through. -/
def canonName (s : String) : String :=
  if lowerStr s ∈ ["open", "high", "low", "close", "volume"] then lowerStr s else s

/-- Modelled from the spec: `standardize_ohlcv_columns` lives in
`talib/utils.py`, which is not among the sources; per the spec it "maps
arbitrary-cased OHLCV column names onto canonical lowercase names
`open, high, low, close, volume`".  We rename every column through
`canonName` and leave values and index untouched. -/
def standardize_ohlcv_columns (d : DataFrame α) : DataFrame α :=
  ⟨d.index, d.columns.map (fun p => (canonName p.1, p.2))⟩

/-! ## Error taxonomy

One constructor per distinct raise site of the dispatch layer.  Following the
spec's §7 taxonomy, the two construction-time raises of `TA.__init__`
(`ValueError` for a missing source, `TypeError` for a wrong-typed one) are both
`invalidInput`; the remaining constructors match the spec's names. -/

inductive TAError where
  /-- `TA.__init__`: neither source given, or a wrong-typed one
  (the Python `ValueError`/`TypeError` raises), and the wrong-type raise of
  `Indicator.__init__`. -/
  | invalidInput (msg : String)
  /-- `SeriesIndicator._validate_columns` / the volume check of
  `OHLCVIndicator._validate_columns`: a single missing column. -/
  | missingColumn (c : String)
  /-- `OHLCIndicator._validate_columns`: every absent OHLC column. -/
  | missingColumns (cols : List String)
  /-- pandas `KeyError` from `self.data[column]` in `Indicator.__init__`. -/
  | keyError (c : String)
  /-- `TA.__getattr__`: name absent from the registry (`AttributeError`). -/
  | unknownIndicator (name : String)
  /-- `TA.__getattr__`: OHLC-requiring unit requested on a series facade. -/
  | incompatibleIndicator (name : String)
  deriving DecidableEq

/-! ## Indicator taxonomy: shape contracts and their validation -/

/-- Which taxonomy branch an indicator class extends.  `plain` is a direct
`Indicator` subclass (base `_validate_columns` is a no-op). -/
inductive ShapeTag where
  | plain
  | seriesOnly
  | requiresOHLC
  | requiresOHLCV
  deriving DecidableEq

/-- The four columns `OHLCIndicator._validate_columns` requires. -/
def requiredOHLC : List String := ["open", "high", "low", "close"]

/-- `SeriesIndicator._validate_columns`: the selected column must exist. -/
def SeriesIndicator_validate (column : String) (cols : List String) : Except TAError Unit :=
  if column ∈ cols then .ok () else .error (.missingColumn column)

/-- `OHLCIndicator._validate_columns`: fails listing every absent column of
`{open, high, low, close}` (`required - set(self.data.columns)`). -/
def OHLCIndicator_validate (cols : List String) : Except TAError Unit :=
  if ∀ c ∈ requiredOHLC, c ∈ cols then .ok ()
  else .error (.missingColumns (requiredOHLC.filter (fun c => decide (c ∉ cols))))

/-- `OHLCVIndicator._validate_columns`: the OHLC check runs first
(`super()._validate_columns()`), then the volume check. -/
def OHLCVIndicator_validate (cols : List String) : Except TAError Unit := do
  OHLCIndicator_validate cols
  if "volume" ∈ cols then .ok () else .error (.missingColumn "volume")

/-- Dispatch of `_validate_columns` by taxonomy branch. -/
def validateByTag : ShapeTag → String → List String → Except TAError Unit
  | .plain, _, _ => .ok ()
  | .seriesOnly, column, cols => SeriesIndicator_validate column cols
  | .requiresOHLC, _, cols => OHLCIndicator_validate cols
  | .requiresOHLCV, _, cols => OHLCVIndicator_validate cols

/-- The state an `Indicator.__init__` call leaves behind: the standardized
table (`self.data`), the selected series (`self.series`) and the column. -/
structure IndState (α : Type) where
  data : DataFrame α
  series : List (Option α)
  column : String
  deriving DecidableEq

/-- `Indicator.__init__`.  For a DataFrame source: standardize, select
`self.series = self.data[column]` (a `KeyError` if absent — note this happens
before `_validate_columns`), then validate.  For a Series source: wrap the
series as a one-column `close` table; no column validation runs on this
branch.  Anything else: the `TypeError` raise. -/
def Indicator_init (tag : ShapeTag) (source : PyObj α) (column : String) :
    Except TAError (IndState α) :=
  match source with
  | .dataframe df =>
    let data := standardize_ohlcv_columns df
    match data.col? column with
    | none => .error (.keyError column)
    | some s => do
      validateByTag tag column data.colNames
      .ok ⟨data, s, column⟩
  | .pyseries s => .ok ⟨⟨s.index, [("close", s.values)]⟩, s.values, column⟩
  | .other => .error (.invalidInput "Input must be DataFrame or Series")

/-! ## The TA facade -/

/-- The source a constructed facade holds (`self.source` / `self.source_type`). -/
inductive TASource (α : Type) where
  | table (d : DataFrame α)
  | priceSeries (s : PSeries α)
  deriving DecidableEq

/-- `self.source_type` as a plain tag. -/
inductive SourceTypeTag where
  | ohlc
  | series
  deriving DecidableEq

/-- The source type a facade records. -/
def TASource.typeTag : TASource α → SourceTypeTag
  | .table _ => .ohlc
  | .priceSeries _ => .series

/-- `TA.__init__`: the `ohlc` argument is examined first; only when it is
`None` is `series` considered.  Wrong-typed arguments raise (`TypeError`),
and two `None`s raise (`ValueError`); both are `invalidInput` here. -/
def TA_init (ohlc : Option (PyObj α)) (series : Option (PyObj α)) :
    Except TAError (TASource α) :=
  match ohlc with
  | some (.dataframe d) => .ok (.table (standardize_ohlcv_columns d))
  | some _ => .error (.invalidInput "ohlc must be a pandas DataFrame")
  | none =>
    match series with
    | some (.pyseries s) => .ok (.priceSeries s)
    | some _ => .error (.invalidInput "series must be a pandas Series")
    | none => .error (.invalidInput "Must provide either OHLCV DataFrame or price Series")

/-- The global `CONCRETE_INDICATORS` registry, abstracted to the data the
facade consults: indicator name to taxonomy branch. -/
abbrev Registry := List (String × ShapeTag)

/-- `CONCRETE_INDICATORS.get(name)`. -/
def lookupReg (reg : Registry) (name : String) : Option ShapeTag :=
  (reg.find? (fun p => p.1 == name)).map (·.2)

/-- The compatibility guard of `TA.__getattr__`: resolve the name, then, on a
series facade, reject `OHLCIndicator`/`OHLCVIndicator` subclasses before any
wrapper (and hence any unit construction) is produced. -/
def TA_getattrCheck (src : TASource α) (reg : Registry) (name : String) :
    Except TAError ShapeTag :=
  match lookupReg reg name with
  | none => .error (.unknownIndicator name)
  | some tag =>
    match src with
    | .table _ => .ok tag
    | .priceSeries _ =>
      if tag = .requiresOHLC ∨ tag = .requiresOHLCV then
        .error (.incompatibleIndicator name)
      else .ok tag

/-- The facade's source as the Python value handed to `Indicator.__init__`. -/
def sourceObj : TASource α → PyObj α
  | .table d => .dataframe d
  | .priceSeries s => .pyseries s

/-- Requesting an indicator through the facade, up to unit construction:
`TA.__getattr__` followed by the wrapper's `indicator_cls(self.source, ...)`.
The facade-level guard runs strictly first; unit construction (and with it
column validation) is reached only if it passes. -/
def TA_requestUnit (src : TASource α) (reg : Registry) (name : String)
    (column : String) : Except TAError (IndState α) := do
  let tag ← TA_getattrCheck src reg name
  Indicator_init tag (sourceObj src) column

/-- Is a unit available through a series-only facade?
(`not issubclass(cls, (OHLCIndicator, OHLCVIndicator))`). -/
def seriesCompatible : ShapeTag → Bool
  | .requiresOHLC => false
  | .requiresOHLCV => false
  | _ => true

/-- Lexicographic comparison of character lists by code point, the order
Python's `sorted` uses on strings. -/
def lexLe : List Char → List Char → Bool
  | [], _ => true
  | _ :: _, [] => false
  | a :: as, b :: bs => if a < b then true else if b < a then false else lexLe as bs

/-- String comparison through `lexLe`. -/
def strLe (a b : String) : Bool := lexLe a.data b.data

/-- `TA.available_indicators`: every registered name compatible with the
facade's source type, sorted by name. -/
def availableIndicators (reg : Registry) (st : SourceTypeTag) : List String :=
  ((reg.filter (fun p => match st with
      | .ohlc => true
      | .series => seriesCompatible p.2)).map (·.1)).insertionSort
    (fun a b => strLe a b = true)

theorem lexLe_total (a b : List Char) : lexLe a b = true ∨ lexLe b a = true := by
  induction a generalizing b with
  | nil => left; rfl
  | cons x xs ih =>
    cases b with
    | nil => right; rfl
    | cons y ys =>
      by_cases h1 : x < y
      · left; simp [lexLe, h1]
      · by_cases h2 : y < x
        · right; simp [lexLe, h2]
        · rcases ih ys with h | h
          · left; simp [lexLe, h1, h2, h]
          · right; simp [lexLe, h1, h2, h]

theorem lexLe_trans : ∀ (a b c : List Char),
    lexLe a b = true → lexLe b c = true → lexLe a c = true
  | [], _, _, _, _ => rfl
  | _ :: _, [], _, h1, _ => by simp [lexLe] at h1
  | _ :: _, _ :: _, [], _, h2 => by simp [lexLe] at h2
  | x :: xs, y :: ys, z :: zs, h1, h2 => by
    simp only [lexLe] at h1 h2 ⊢
    rcases lt_trichotomy x y with hxy | hxy | hxy
    · rcases lt_trichotomy y z with hyz | hyz | hyz
      · simp [lt_trans hxy hyz]
      · subst hyz; simp [hxy]
      · simp [asymm hyz, hyz] at h2
    · subst hxy
      simp only [lt_irrefl, if_false] at h1
      rcases lt_trichotomy x z with hxz | hxz | hxz
      · simp [hxz]
      · subst hxz
        simp only [lt_irrefl, if_false] at h2 ⊢
        exact lexLe_trans xs ys zs h1 h2
      · simp [asymm hxz, hxz] at h2
    · simp [asymm hxy, hxy] at h1

instance strLeIsTotal : IsTotal String (fun a b => strLe a b = true) :=
  ⟨fun a b => lexLe_total a.data b.data⟩

instance strLeIsTrans : IsTrans String (fun a b => strLe a b = true) :=
  ⟨fun a b c => lexLe_trans a.data b.data c.data⟩

/-! ## Concrete indicator units

Each `compute` is translated from its module under `src/talib/indicators/`.
The modules `er.py`, `tp.py` and `atr.py` are imported there but are not among
the sources; their computations are modelled from the spec and the comments at
their call sites, and are marked as such. -/

/-- The squared adaptive smoothing constant of `AMA.compute` (`ama.py`):
the high/low efficiency proxy `|close-ll - (hh-close)| / (hh-ll)` with a flat
range replaced by NaN (`.replace(0, np.nan)`), interpolated between the fast
and slow constants and squared (`cst = ssc * ssc`). -/
def amaCst (period fast_period slow_period : Nat) (d : DataFrame α) : List (Option α) :=
  let close := d.colD "close"
  let hh := rollingMax period (d.colD "high")
  let ll := rollingMin period (d.colD "low")
  let fast_sc : α := 2 / ((fast_period : α) + 1)
  let slow_sc : α := 2 / ((slow_period : α) + 1)
  let price_range := (map2 optSub hh ll).map (fun o =>
    match o with
    | some q => if q = 0 then none else some q
    | none => none)
  let mltp := map2 optDiv
    ((map2 optSub (map2 optSub close ll) (map2 optSub hh close)).map optAbs) price_range
  let ssc := mltp.map (Option.map (fun q => q * (fast_sc - slow_sc) + slow_sc))
  ssc.map (fun o => optMul o o)

/-- The loop of `AMA.compute`: `ama[0] = close[0]`; for `1 ≤ i < period` the
warm-up branch `ama[i] = close[i-1] + cst[i]*(close[i] - close[i-1])`; for
`i ≥ period` the recursive filter `ama[i] = ama[i-1] + cst[i]*(close[i] -
ama[i-1])`, a strict left-to-right scan. -/
def amaRec (period : Nat) (close cst : List (Option α)) : Nat → Option α
  | 0 => close.getD 0 none
  | (i + 1) =>
    if i + 1 < period then
      optAdd (close.getD i none)
        (optMul (cst.getD (i + 1) none) (optSub (close.getD (i + 1) none) (close.getD i none)))
    else
      let prev := amaRec period close cst i
      optAdd prev (optMul (cst.getD (i + 1) none) (optSub (close.getD (i + 1) none) prev))

/-- `AMA.compute` (`ama.py`): the adaptive moving average as a series named
`AMA<period>` on the input's index.  (On an empty table the Python
`ama[0] = close[0]` raises; the embedding returns the empty series there.) -/
def AMA_compute (period fast_period slow_period : Nat) (d : DataFrame α) : PSeries α :=
  let close := d.colD "close"
  let cst := amaCst period fast_period slow_period d
  ⟨d.index, (List.range close.length).map (amaRec period close cst),
    "AMA" ++ toString period⟩

/-- Modelled from the spec: the `ER` unit (`talib/indicators/er.py`) is not
among the sources.  Per the spec §4.2 it is the per-bar volatility-efficiency
ratio `|net change over window| / sum(|bar-to-bar changes| over window)`:
here `|x[i] - x[i-period]|` divided by the rolling sum of `|diff|` over the
same window, NaN while the window is incomplete and NaN on a flat window
(0/0, via `optDiv`). -/
def ER_compute (period : Nat) (xs : List (Option α)) : List (Option α) :=
  let vol := rollingSum period ((diff1 xs).map optAbs)
  (List.range xs.length).map (fun i =>
    if i < period then none
    else optDiv (optAbs (optSub (xs.getD i none) (xs.getD (i - period) none)))
      (vol.getD i none))

/-- The smoothing constant of `KAMA.compute` (`kama.py`):
`sc = (er * (fast_alpha - slow_alpha) + slow_alpha) ** 2`. -/
def kamaSc (er_period ema_fast ema_slow : Nat) (xs : List (Option α)) : List (Option α) :=
  let er := ER_compute er_period xs
  let fa : α := 2 / ((ema_fast : α) + 1)
  let sa : α := 2 / ((ema_slow : α) + 1)
  er.map (Option.map (fun q => (q * (fa - sa) + sa) ^ 2))

/-- The in-place loop of `KAMA.compute` over `kama = sma.copy()`: position `i`
is overwritten with `kama[i-1] + sc[i]*(price[i] - kama[i-1])` exactly when
the previous output and `sc[i]` are both defined; otherwise it keeps its
seeded SMA value. -/
def kamaRec (sv sc sma : List (Option α)) : Nat → Option α
  | 0 => sma.getD 0 none
  | (i + 1) =>
    match kamaRec sv sc sma i, sc.getD (i + 1) none with
    | some p, some c =>
      optAdd (some p) (optMul (some c) (optSub (sv.getD (i + 1) none) (some p)))
    | _, _ => sma.getD (i + 1) none

/-- `KAMA.compute` (`kama.py`): Kaufman's adaptive moving average, named
`KAMA`, on the input's index. -/
def KAMA_compute (er_period ema_fast ema_slow period : Nat) (d : DataFrame α)
    (column : String) : PSeries α :=
  let sv := d.colD column
  let sc := kamaSc er_period ema_fast ema_slow sv
  let sma := rollingMean period sv
  ⟨d.index, (List.range sv.length).map (kamaRec sv sc sma), "KAMA"⟩

/-- `MABW.compute` (`mabw.py`).  `np.sqrt` is passed in as `sqrtF` (the
square root of the reals; statements instantiate it by `Real.sqrt` or another
nonnegative function), everything else follows the source: two EMAs, the
rolling root-mean-square of their gap scaled by the multiplier as the band
offset, bands centered on the slow EMA, a width percentage and its rolling
minimum. -/
def MABW_compute (sqrtF : α → α) (fast_period slow_period : Nat) (multiplier : α)
    (d : DataFrame α) (column : String) : DataFrame α :=
  let sv := d.colD column
  let ma_slow := ewmMean slow_period sv
  let ma_fast := ewmMean fast_period sv
  let dst := map2 optSub ma_slow ma_fast
  let dv := (rollingMean fast_period (dst.map (fun o => optMul o o))).map (Option.map sqrtF)
  let dev := dv.map (Option.map (fun q => q * multiplier))
  let upper := map2 optAdd ma_slow dev
  let lower := map2 optSub ma_slow dev
  let width := (map2 optDiv (map2 optSub upper lower) ma_slow).map (Option.map (fun q => q * 100))
  let llv := rollingMin slow_period width
  ⟨d.index, [("MAB_UPPER", upper), ("MAB_MIDDLE", ma_fast), ("MAB_LOWER", lower),
    ("MAB_WIDTH", width), ("MAB_LLV", llv)]⟩

/-- `STOCH_MACD.compute` (`stoch_macd.py`): two EMAs of the close, each put
in stochastic position against the rolling high/low range, difference scaled
by 100, and an EMA signal line. -/
def STOCH_MACD_compute (period fast_period slow_period signal : Nat)
    (d : DataFrame α) : DataFrame α :=
  let hh := rollingMax period (d.colD "high")
  let ll := rollingMin period (d.colD "low")
  let ema_fast := ewmMean fast_period (d.colD "close")
  let ema_slow := ewmMean slow_period (d.colD "close")
  let rng := map2 optSub hh ll
  let stoch_fast := map2 optDiv (map2 optSub ema_fast ll) rng
  let stoch_slow := map2 optDiv (map2 optSub ema_slow ll) rng
  let stmacd := (map2 optSub stoch_fast stoch_slow).map (Option.map (fun q => q * 100))
  let sig := ewmMean signal stmacd
  ⟨d.index, [("STMACD", stmacd), ("STMACD_SIGNAL", sig)]⟩

/-- Modelled from the spec: the `TP` unit (`talib/indicators/tp.py`) is not
among the sources; the comment at its call site in `vpn.py` gives it as the
typical price `(high + low + close) / 3`. -/
def TP_compute (d : DataFrame α) : List (Option α) :=
  (map2 optAdd (map2 optAdd (d.colD "high") (d.colD "low")) (d.colD "close")).map
    (Option.map (fun q => q / 3))

/-- Modelled from the spec: the true range of bar `i`,
`max(high - low, |high - prev close|, |low - prev close|)`, NaN at bar 0
where no previous close exists. -/
def trueRange (d : DataFrame α) : List (Option α) :=
  let high := d.colD "high"
  let low := d.colD "low"
  let close := d.colD "close"
  (List.range high.length).map (fun i =>
    if i = 0 then none
    else
      match high.getD i none, low.getD i none, close.getD (i - 1) none with
      | some h, some l, some pc => some (max (h - l) (max |h - pc| |l - pc|))
      | _, _, _ => none)

/-- Modelled from the spec: the `ATR` unit (`talib/indicators/atr.py`) is not
among the sources; the comment at its call site says "Average True Range is
moving average of True Range" and the spec calls it "a rolling average true
range over the same lookback", so it is the rolling mean of the true range. -/
def ATR_compute (period : Nat) (d : DataFrame α) : List (Option α) :=
  rollingMean period (trueRange d)

/-- `VPN.compute` (`vpn.py`), line for line: rolling mean volume, typical
price, ATR, momentum `mf = tp.diff(1)`, threshold `mc = 0.1 * atr`, the 0/1
volume gates `(mf > mc).astype(int) * v` and `(mf < -mc).astype(int) * v`,
rolling up/down volume sums, the non-positive mean-volume floor
`mav_[mav_ <= 0] = 1`, the scaled ratio `(vp - vn)/mav/period*100`, an EMA
smooth and a rolling-mean signal line. -/
def VPN_compute (period ema_period mav_period : Nat) (d : DataFrame α) : DataFrame α :=
  let v := d.colD "volume"
  let mav0 := rollingMean period v
  let tp := TP_compute d
  let atr := ATR_compute period d
  let mf := diff1 tp
  let mc := atr.map (Option.map (fun q => q * (1 / 10)))
  let vol_up := map2 optMul (map2Gate optGtB mf mc) v
  let vol_down := map2 optMul (map2Gate optLtB mf (mc.map optNeg)) v
  let vp := rollingSum period vol_up
  let vn := rollingSum period vol_down
  let mav := mav0.map (fun o =>
    match o with
    | some q => if q ≤ 0 then some 1 else some q
    | none => none)
  let vpnRaw := (map2 optDiv (map2 optSub vp vn) mav).map
    (fun o => (optDiv o (some (period : α))).map (fun q => q * 100))
  let vpnLine := ewmMean ema_period vpnRaw
  let maVpn := rollingMean mav_period vpnLine
  ⟨d.index, [("VPN", vpnLine), ("MA_VPN", maVpn)]⟩

/-- The volume-imbalance oscillator exactly as claim C9 words it, index by
index: bar `i`'s volume counts as up (down) volume exactly when the one-bar
momentum of the typical price exceeds (falls below the negative of) the
threshold `0.1 ×` the rolling ATR over the same lookback; the rolling up/down
volume sums are normalized by the rolling mean volume with every non-positive
value replaced by 1 before division, scaled to a ±100 range, smoothed
exponentially, and smoothed again by a simple moving average. -/
def VPN_claimed (period ema_period mav_period : Nat) (d : DataFrame α) : DataFrame α :=
  let v := d.colD "volume"
  let n := v.length
  let tp := TP_compute d
  let atr := ATR_compute period d
  let momAt : Nat → Option α := fun i =>
    if i = 0 then none else optSub (tp.getD i none) (tp.getD (i - 1) none)
  let thrAt : Nat → Option α := fun i => (atr.getD i none).map (fun q => q * (1 / 10))
  let upv := (List.range n).map (fun i =>
    if optGtB (momAt i) (thrAt i) then v.getD i none else some 0)
  let downv := (List.range n).map (fun i =>
    if optLtB (momAt i) (optNeg (thrAt i)) then v.getD i none else some 0)
  let upSum := rollingSum period upv
  let downSum := rollingSum period downv
  let meanVol := (rollingMean period v).map (fun o =>
    match o with
    | some q => if q ≤ 0 then some 1 else some q
    | none => none)
  let scaled := (List.range n).map (fun i =>
    (optDiv (optSub (upSum.getD i none) (downSum.getD i none))
      (optMul (meanVol.getD i none) (some (period : α)))).map (fun q => q * 100))
  let vpnLine := ewmMean ema_period scaled
  let signalLine := rollingMean mav_period vpnLine
  ⟨d.index, [("VPN", vpnLine), ("MA_VPN", signalLine)]⟩

/-! ## Helper lemmas for the numeric claims -/

theorem optAdd_none_right (a : Option α) : optAdd a none = none := by
  cases a <;> rfl

theorem optAdd_none_left (a : Option α) : optAdd none a = none := by
  cases a <;> rfl

theorem optMul_none_left (a : Option α) : optMul none a = none := by
  cases a <;> rfl

theorem optMul_none_right (a : Option α) : optMul a none = none := by
  cases a <;> rfl

theorem optSub_none_left (a : Option α) : optSub none a = none := by
  cases a <;> rfl

theorem optSub_none_right (a : Option α) : optSub a none = none := by
  cases a <;> rfl

theorem optDiv_none_left (a : Option α) : optDiv none a = none := by
  cases a <;> rfl

theorem optDiv_none_right (a : Option α) : optDiv a none = none := by
  cases a <;> rfl

theorem getD_map_opt (f : Option α → Option α) (xs : List (Option α)) (i : Nat)
    (h : i < xs.length) : (xs.map f).getD i none = f (xs.getD i none) := by
  have hx : xs[i]? = some xs[i] := List.getElem?_eq_getElem h
  simp [List.getD_eq_getElem?_getD, List.getElem?_map, hx]

/-- Two lists of equal length agreeing at every `getD` position are equal. -/
theorem extGetD {β : Type} (dv : β) (xs ys : List β) (hlen : xs.length = ys.length)
    (h : ∀ i, i < xs.length → xs.getD i dv = ys.getD i dv) : xs = ys := by
  apply List.ext_getElem hlen
  intro i h1 h2
  have hi := h i h1
  rwa [List.getD_eq_getElem?_getD, List.getD_eq_getElem?_getD,
    List.getElem?_eq_getElem h1, List.getElem?_eq_getElem h2] at hi

theorem getD_mem {β : Type} (xs : List β) (i : Nat) (dv : β) (h : i < xs.length) :
    xs.getD i dv ∈ xs := by
  rw [List.getD_eq_getElem?_getD, List.getElem?_eq_getElem h]
  exact List.getElem_mem h

/-- Dividing twice is dividing by the product, in NaN-propagating arithmetic
(`a/b/c = a/(b*c)`, with every division-by-zero mapped to NaN). -/
theorem optDiv_optDiv (A B : Option α) (c : α) :
    optDiv (optDiv A B) (some c) = optDiv A (optMul B (some c)) := by
  cases A with
  | none => cases B <;> simp [optDiv, optMul]
  | some a =>
    cases B with
    | none => simp [optDiv, optMul]
    | some b =>
      by_cases hb : b = 0
      · subst hb
        simp [optDiv, optMul]
      · by_cases hc2 : c = 0
        · subst hc2
          simp [optDiv, optMul, hb]
        · simp [optDiv, optMul, hb, hc2, mul_eq_zero, div_div]

/-- While fewer than `w` rows are available, every rolling aggregate is NaN. -/
theorem rollingApply_getD_none_of_warmup (f : List α → Option α) (w : Nat)
    (xs : List (Option α)) (i : Nat) (hi : i < xs.length) (hw : i + 1 < w) :
    (rollingApply f w xs).getD i none = none := by
  rw [getD_rollingApply _ _ _ _ hi, rollingCell, if_pos (Or.inl hw)]

/-- The rolling high/low range of `AMA.compute` is NaN during warm-up. -/
theorem ama_range_getD_none_of_warmup (d : DataFrame α) (period i : Nat)
    (hl : (d.colD "low").length = (d.colD "high").length)
    (hi : i < (d.colD "high").length) (hw : i + 1 < period) :
    (map2 optSub (rollingMax period (d.colD "high"))
      (rollingMin period (d.colD "low"))).getD i none = none := by
  rw [getD_map2 _ _ _ i (by simpa [rollingMax, length_rollingApply] using hi)
    (by simpa [rollingMin, length_rollingApply, hl] using hi)]
  rw [rollingMax, rollingApply_getD_none_of_warmup _ _ _ _ hi hw]
  exact optSub_none_left _

/-- If the rolling high/low range at `i` is NaN or zero, the adaptive
smoothing constant of `AMA.compute` at `i` is NaN (the zero case is the
`.replace(0, np.nan)` guard: the division never sees a zero divisor). -/
theorem amaCst_getD_none (d : DataFrame α) (period fp sp i : Nat)
    (hc : (d.colD "close").length = (d.colD "high").length)
    (hl : (d.colD "low").length = (d.colD "high").length)
    (hi : i < (d.colD "high").length)
    (hrng : (map2 optSub (rollingMax period (d.colD "high"))
        (rollingMin period (d.colD "low"))).getD i none = none ∨
      (map2 optSub (rollingMax period (d.colD "high"))
        (rollingMin period (d.colD "low"))).getD i none = some 0) :
    (amaCst period fp sp d).getD i none = none := by
  have lhh : (rollingMax period (d.colD "high")).length = (d.colD "high").length := by
    simp [rollingMax, length_rollingApply]
  have lll : (rollingMin period (d.colD "low")).length = (d.colD "high").length := by
    simp [rollingMin, length_rollingApply, hl]
  simp only [amaCst]
  simp only [getD_map_opt, getD_map2, length_map2, List.length_map, lhh, lll, hc,
    min_self, hi]
  simp only [getD_map2, length_map2, lhh, lll, min_self, hi] at hrng
  rcases hrng with h | h <;> rw [h] <;>
    simp [optDiv_none_right, optMul_none_right, optMul_none_left]

theorem lt_length_of_getD_some {β : Type} (xs : List (Option β)) (i : Nat) (u : β)
    (h : xs.getD i none = some u) : i < xs.length := by
  by_contra hn
  push_neg at hn
  rw [List.getD_eq_getElem?_getD, List.getElem?_eq_none hn] at h
  simp at h

/-- A band pair `ms ± dev` with a nonnegative offset: whenever the upper band
is defined, the lower band is too, the two sum to twice the center, and the
lower band lies below the upper. -/
theorem bands_centered_abstract (ms dev : List (Option α)) (i : Nat) (u : α)
    (hnn : ∀ x ∈ dev, ∀ y, x = some y → 0 ≤ y)
    (hu : (map2 optAdd ms dev).getD i none = some u) :
    ∃ l m, (map2 optSub ms dev).getD i none = some l ∧ ms.getD i none = some m ∧
      u + l = 2 * m ∧ l ≤ u := by
  have hlen := lt_length_of_getD_some _ _ _ hu
  rw [length_map2] at hlen
  have hmi : i < ms.length := lt_of_lt_of_le hlen (min_le_left _ _)
  have hdi : i < dev.length := lt_of_lt_of_le hlen (min_le_right _ _)
  rw [getD_map2 _ _ _ i hmi hdi] at hu
  cases hms : ms.getD i none with
  | none =>
    rw [hms, optAdd_none_left] at hu
    exact absurd hu (by simp)
  | some m =>
    cases hdev : dev.getD i none with
    | none =>
      rw [hms, hdev, optAdd_none_right] at hu
      exact absurd hu (by simp)
    | some dvv =>
      rw [hms, hdev] at hu
      simp only [optAdd, Option.some.injEq] at hu
      have hmem : (some dvv : Option α) ∈ dev := by
        rw [← hdev]
        exact getD_mem _ i none hdi
      have hdpos : 0 ≤ dvv := hnn _ hmem dvv rfl
      refine ⟨m - dvv, m, ?_, rfl, ?_, ?_⟩
      · rw [getD_map2 _ _ _ i hmi hdi, hms, hdev]
        rfl
      · rw [← hu]
        ring
      · rw [← hu]
        linarith

/-! ## Claim C9 -/

/-- A 0/1 volume gate times a defined volume is the volume or zero. -/
theorem gate_mul (b : Bool) (q : α) :
    optMul (some (if b then (1 : α) else 0)) (some q) = if b then some q else some 0 := by
  cases b <;> simp [optMul]

/-- Dividing a difference by a mean and then by the period, NaN-style,
is dividing by their product. -/
theorem scaled_div_assoc (up down mav : List (Option α)) (p n : Nat)
    (lup : up.length = n) (ldown : down.length = n) (lmav : mav.length = n) :
    (map2 optDiv (map2 optSub up down) mav).map
      (fun o => (optDiv o (some (p : α))).map (fun q => q * 100)) =
    (List.range n).map (fun i =>
      (optDiv (optSub (up.getD i none) (down.getD i none))
        (optMul (mav.getD i none) (some (p : α)))).map (fun q => q * 100)) := by
  have lsub : (map2 optSub up down).length = n := by
    simp only [length_map2, lup, ldown, min_self]
  have ldiv : (map2 optDiv (map2 optSub up down) mav).length = n := by
    simp only [length_map2, lsub, lmav, min_self]
  apply extGetD none
  · simp only [List.length_map, List.length_range, ldiv]
  · intro i hi
    have hi' : i < n := by
      simp only [List.length_map] at hi
      rw [ldiv] at hi
      exact hi
    rw [getD_map_opt _ _ i (by rw [ldiv]; exact hi')]
    rw [getD_map2 _ _ _ i (by rw [lsub]; exact hi') (by rw [lmav]; exact hi')]
    rw [getD_map2 _ _ _ i (by rw [lup]; exact hi') (by rw [ldown]; exact hi')]
    rw [getD_map_range _ _ i none hi']
    rw [optDiv_optDiv]

/-- C9: `VPN.compute` is exactly the computation the claim describes.  On a
well-formed OHLCV table (aligned columns, defined volumes) it equals
`VPN_claimed`: each bar's volume counts as up (down) volume exactly when the
one-bar typical-price momentum exceeds (falls below the negative of)
`0.1 × ATR` over the same lookback; the rolling up/down sums are normalized
by the rolling mean volume with every non-positive value floored to 1 before
division, scaled to ±100 (the division by the window length), then smoothed
exponentially and by a simple moving average. -/
theorem vpn_matches_claimed (d : DataFrame α) (period ema_period mav_period : Nat)
    (hh : (d.colD "high").length = (d.colD "volume").length)
    (hl : (d.colD "low").length = (d.colD "volume").length)
    (hc : (d.colD "close").length = (d.colD "volume").length)
    (hv : ∀ x ∈ d.colD "volume", x.isSome) :
    VPN_compute period ema_period mav_period d =
      VPN_claimed period ema_period mav_period d := by
  have ltp : (TP_compute d).length = (d.colD "volume").length := by
    simp [TP_compute, length_map2, hh, hl, hc]
  have latr : (ATR_compute period d).length = (d.colD "volume").length := by
    simp [ATR_compute, rollingMean, length_rollingApply, trueRange, hh]
  have lmf : (diff1 (TP_compute d)).length = (d.colD "volume").length := by
    simp [length_diff1, ltp]
  have lmc : ((ATR_compute period d).map
      (Option.map (fun q : α => q * (1 / 10)))).length = (d.colD "volume").length := by
    simp [latr]
  have hvq : ∀ i, i < (d.colD "volume").length →
      ∃ q, (d.colD "volume").getD i none = some q := fun i hi =>
    Option.isSome_iff_exists.mp (hv _ (getD_mem _ i none hi))
  have hup : map2 optMul (map2Gate optGtB (diff1 (TP_compute d))
        ((ATR_compute period d).map (Option.map (fun q => q * (1 / 10)))))
        (d.colD "volume") =
      (List.range (d.colD "volume").length).map (fun i =>
        if optGtB (if i = 0 then none
            else optSub ((TP_compute d).getD i none) ((TP_compute d).getD (i - 1) none))
          (((ATR_compute period d).getD i none).map (fun q => q * (1 / 10)))
        then (d.colD "volume").getD i none else some 0) := by
    have lgate : (map2Gate optGtB (diff1 (TP_compute d))
        ((ATR_compute period d).map (Option.map (fun q : α => q * (1 / 10))))).length =
        (d.colD "volume").length := by
      simp only [length_map2Gate, length_diff1, List.length_map, ltp, latr, min_self]
    have lwhole : (map2 optMul (map2Gate optGtB (diff1 (TP_compute d))
        ((ATR_compute period d).map (Option.map (fun q : α => q * (1 / 10)))))
        (d.colD "volume")).length = (d.colD "volume").length := by
      simp only [length_map2, lgate, min_self]
    apply extGetD none
    · simp only [List.length_map, List.length_range, lwhole]
    · intro i hi
      have hi' : i < (d.colD "volume").length := by
        rw [lwhole] at hi
        exact hi
      rw [getD_map2 _ _ _ i (by rw [lgate]; exact hi') hi']
      rw [getD_map2Gate _ _ _ i (by rw [length_diff1, ltp]; exact hi')
        (by simp only [List.length_map]; rw [latr]; exact hi')]
      rw [getD_diff1 _ i (by rw [ltp]; exact hi')]
      rw [getD_map_opt _ _ i (by rw [latr]; exact hi')]
      rw [getD_map_range _ _ i none hi']
      obtain ⟨q, hq⟩ := hvq i hi'
      rw [hq, gate_mul]
  have hdown : map2 optMul (map2Gate optLtB (diff1 (TP_compute d))
        (((ATR_compute period d).map (Option.map (fun q => q * (1 / 10)))).map optNeg))
        (d.colD "volume") =
      (List.range (d.colD "volume").length).map (fun i =>
        if optLtB (if i = 0 then none
            else optSub ((TP_compute d).getD i none) ((TP_compute d).getD (i - 1) none))
          (optNeg (((ATR_compute period d).getD i none).map (fun q => q * (1 / 10))))
        then (d.colD "volume").getD i none else some 0) := by
    have lgate2 : (map2Gate optLtB (diff1 (TP_compute d))
        (((ATR_compute period d).map (Option.map (fun q : α => q * (1 / 10)))).map
          optNeg)).length = (d.colD "volume").length := by
      simp only [length_map2Gate, length_diff1, List.length_map, ltp, latr, min_self]
    have lwhole2 : (map2 optMul (map2Gate optLtB (diff1 (TP_compute d))
        (((ATR_compute period d).map (Option.map (fun q : α => q * (1 / 10)))).map
          optNeg)) (d.colD "volume")).length = (d.colD "volume").length := by
      simp only [length_map2, lgate2, min_self]
    apply extGetD none
    · simp only [List.length_map, List.length_range, lwhole2]
    · intro i hi
      have hi' : i < (d.colD "volume").length := by
        rw [lwhole2] at hi
        exact hi
      rw [getD_map2 _ _ _ i (by rw [lgate2]; exact hi') hi']
      rw [getD_map2Gate _ _ _ i (by rw [length_diff1, ltp]; exact hi')
        (by simp only [List.length_map]; rw [latr]; exact hi')]
      rw [getD_diff1 _ i (by rw [ltp]; exact hi')]
      rw [getD_map_opt optNeg _ i (by simp only [List.length_map]; rw [latr]; exact hi')]
      rw [getD_map_opt _ _ i (by rw [latr]; exact hi')]
      rw [getD_map_range _ _ i none hi']
      obtain ⟨q, hq⟩ := hvq i hi'
      rw [hq, gate_mul]
  simp only [VPN_compute, VPN_claimed]
  rw [hup, hdown]
  rw [scaled_div_assoc _ _ _ period (d.colD "volume").length
    (by simp [rollingSum, length_rollingApply])
    (by simp [rollingSum, length_rollingApply])
    (by simp [rollingMean, length_rollingApply])]

/-- Witness for C9 at a concrete one-row OHLCV table. -/
theorem vpn_matches_claimed_witness :
    (((⟨[0], [("open", [some (1:ℚ)]), ("high", [some 2]), ("low", [some 1]),
        ("close", [some 2]), ("volume", [some 5])]⟩ : DataFrame ℚ).colD "high").length =
        ((⟨[0], [("open", [some (1:ℚ)]), ("high", [some 2]), ("low", [some 1]),
        ("close", [some 2]), ("volume", [some 5])]⟩ : DataFrame ℚ).colD "volume").length ∧
      ∀ x ∈ (⟨[0], [("open", [some (1:ℚ)]), ("high", [some 2]), ("low", [some 1]),
        ("close", [some 2]), ("volume", [some 5])]⟩ : DataFrame ℚ).colD "volume",
        x.isSome) ∧
    VPN_compute 30 3 30 (⟨[0], [("open", [some (1:ℚ)]), ("high", [some 2]),
        ("low", [some 1]), ("close", [some 2]), ("volume", [some 5])]⟩ : DataFrame ℚ) =
      VPN_claimed 30 3 30 (⟨[0], [("open", [some (1:ℚ)]), ("high", [some 2]),
        ("low", [some 1]), ("close", [some 2]), ("volume", [some 5])]⟩ : DataFrame ℚ) :=
  ⟨⟨by decide, by decide⟩,
    vpn_matches_claimed _ 30 3 30 (by decide) (by decide) (by decide) (by decide)⟩

/-! ## Claim C1 -/

/-- C1: on a facade holding only a price series, requesting any indicator
whose shape contract is `RequiresOHLC` or `RequiresOHLCV` fails with
`IncompatibleIndicator` — the facade-level guard of `TA.__getattr__` fires
before `Indicator.__init__` (and hence before its column validation) is
reached, so the error is never a missing-column error.  In particular this
holds for the volume-imbalance oscillator `VPN` (an `OHLCVIndicator`). -/
theorem series_facade_incompatible_before_validation (s : PSeries α)
    (reg : Registry) (name column : String) (tag : ShapeTag)
    (hlook : lookupReg reg name = some tag)
    (htag : tag = .requiresOHLC ∨ tag = .requiresOHLCV) :
    TA_requestUnit (TASource.priceSeries s) reg name column =
      .error (.incompatibleIndicator name) ∧
    (∀ cs, TA_requestUnit (TASource.priceSeries s) reg name column ≠
      .error (.missingColumns cs)) ∧
    (∀ c, TA_requestUnit (TASource.priceSeries s) reg name column ≠
      .error (.missingColumn c)) := by
  have hguard : TA_getattrCheck (α := α) (TASource.priceSeries s) reg name =
      .error (.incompatibleIndicator name) := by
    rcases htag with h | h <;>
      simp [TA_getattrCheck, hlook, h]
  refine ⟨?_, ?_, ?_⟩
  · simp [TA_requestUnit, hguard, Bind.bind, Except.bind]
  · intro cs
    simp [TA_requestUnit, hguard, Bind.bind, Except.bind]
  · intro c
    simp [TA_requestUnit, hguard, Bind.bind, Except.bind]

/-- Witness for C1 at a concrete series facade and a registry carrying `VPN`
with the `RequiresOHLCV` contract. -/
theorem series_facade_incompatible_before_validation_witness :
    lookupReg [("VPN", ShapeTag.requiresOHLCV)] "VPN" = some ShapeTag.requiresOHLCV ∧
    TA_requestUnit (α := ℚ) (TASource.priceSeries ⟨[0], [some 1], "close"⟩)
      [("VPN", ShapeTag.requiresOHLCV)] "VPN" "close" =
      .error (.incompatibleIndicator "VPN") :=
  ⟨by decide,
    (series_facade_incompatible_before_validation (α := ℚ) ⟨[0], [some 1], "close"⟩
      [("VPN", ShapeTag.requiresOHLCV)] "VPN" "close" ShapeTag.requiresOHLCV
      (by decide) (Or.inr rfl)).1⟩

/-! ## Claim C2 -/

/-- C2: `RequiresOHLC` validation fails listing every absent column of
`{open, high, low, close}` together (membership in the reported list is
exactly "required and absent"); `RequiresOHLCV` validation runs the OHLC
check first, propagating its error unchanged, and only on success fails on a
missing volume column; consequently a table with the four OHLC columns but no
volume fails the full contract reporting exactly volume, and passes the
OHLC-only contract. -/
theorem ohlc_validation_reports_all_missing (cols : List String) :
    (∀ m, OHLCIndicator_validate cols = .error (.missingColumns m) →
      ∀ c, c ∈ m ↔ c ∈ requiredOHLC ∧ c ∉ cols) ∧
    (OHLCIndicator_validate cols = .ok () ↔ ∀ c ∈ requiredOHLC, c ∈ cols) ∧
    (∀ e, OHLCIndicator_validate cols = .error e →
      OHLCVIndicator_validate cols = .error e) ∧
    (OHLCIndicator_validate cols = .ok () → "volume" ∉ cols →
      OHLCVIndicator_validate cols = .error (.missingColumn "volume")) ∧
    ((∀ c ∈ requiredOHLC, c ∈ cols) → "volume" ∉ cols →
      OHLCVIndicator_validate cols = .error (.missingColumn "volume") ∧
      OHLCIndicator_validate cols = .ok ()) := by
  have hchar : ∀ m, OHLCIndicator_validate cols = .error (.missingColumns m) →
      ∀ c, c ∈ m ↔ c ∈ requiredOHLC ∧ c ∉ cols := by
    intro m hm c
    by_cases hall : ∀ c ∈ requiredOHLC, c ∈ cols
    · rw [OHLCIndicator_validate, if_pos hall] at hm
      exact absurd hm (by simp)
    · rw [OHLCIndicator_validate, if_neg hall] at hm
      simp only [Except.error.injEq, TAError.missingColumns.injEq] at hm
      subst hm
      simp [List.mem_filter]
  have hok : OHLCIndicator_validate cols = .ok () ↔ ∀ c ∈ requiredOHLC, c ∈ cols := by
    by_cases hall : ∀ c ∈ requiredOHLC, c ∈ cols <;>
      simp [OHLCIndicator_validate, hall]
  have hprop : ∀ e, OHLCIndicator_validate cols = .error e →
      OHLCVIndicator_validate cols = .error e := by
    intro e he
    simp [OHLCVIndicator_validate, he, Bind.bind, Except.bind]
  have hvol : OHLCIndicator_validate cols = .ok () → "volume" ∉ cols →
      OHLCVIndicator_validate cols = .error (.missingColumn "volume") := by
    intro hk hv
    simp [OHLCVIndicator_validate, hk, Bind.bind, Except.bind, hv]
  exact ⟨hchar, hok, hprop, hvol, fun hall hv =>
    ⟨hvol (hok.mpr hall) hv, hok.mpr hall⟩⟩

/-- Witness for C2 at the concrete column set `{open, high, low, close}`:
the OHLCV contract reports exactly volume, the OHLC contract passes. -/
theorem ohlc_validation_reports_all_missing_witness :
    OHLCVIndicator_validate ["open", "high", "low", "close"] =
      .error (.missingColumn "volume") ∧
    OHLCIndicator_validate ["open", "high", "low", "close"] = .ok () :=
  (ohlc_validation_reports_all_missing ["open", "high", "low", "close"]).2.2.2.2
    (by decide) (by decide)

/-! ## Claim C6 -/

/-- C6 (amended): `TA.__init__` fails with `InvalidInput` when neither source
is given and when the argument it examines is wrong-typed; but when BOTH a
table and a series are given the `ohlc` branch wins: construction succeeds
with the standardized table and the series argument is ignored (the claim's
"fails when both are given" does not hold). -/
theorem ta_init_cases (d : DataFrame α) (s : PSeries α) (x : Option (PyObj α)) :
    TA_init (α := α) none none =
      .error (.invalidInput "Must provide either OHLCV DataFrame or price Series") ∧
    TA_init (some (.pyseries s)) x =
      .error (.invalidInput "ohlc must be a pandas DataFrame") ∧
    TA_init (some .other) x =
      .error (.invalidInput "ohlc must be a pandas DataFrame") ∧
    TA_init (α := α) none (some .other) =
      .error (.invalidInput "series must be a pandas Series") ∧
    TA_init none (some (.dataframe d)) =
      .error (.invalidInput "series must be a pandas Series") ∧
    TA_init none (some (.pyseries s)) = .ok (.priceSeries s) ∧
    TA_init (some (.dataframe d)) x = .ok (.table (standardize_ohlcv_columns d)) :=
  ⟨rfl, rfl, rfl, rfl, rfl, rfl, rfl⟩

/-- Counterexample to C6 as stated: giving BOTH a valid table and a valid
series does not fail with `InvalidInput` — construction succeeds, holding the
table. -/
theorem ta_init_both_given_succeeds :
    TA_init (α := ℚ)
      (some (.dataframe ⟨[0], [("close", [some 1])]⟩))
      (some (.pyseries ⟨[0], [some 2], "x"⟩)) =
      .ok (.table ⟨[0], [("close", [some 1])]⟩) := rfl

/-! ## Claim C7 -/

/-- C7: `available_indicators` returns, sorted by name, exactly the
registered names compatible with the facade's source type: on a table facade
every registered name, on a series facade exactly the names whose class is
not an `OHLCIndicator`/`OHLCVIndicator` subclass; hence the list for a
series facade is always a subset of the list for a table facade. -/
theorem availableIndicators_sorted_compatible_superset (reg : Registry) :
    (∀ st, List.Sorted (fun a b => strLe a b = true) (availableIndicators reg st)) ∧
    (∀ name, name ∈ availableIndicators reg .ohlc ↔ ∃ tag, (name, tag) ∈ reg) ∧
    (∀ name, name ∈ availableIndicators reg .series ↔
      ∃ tag, (name, tag) ∈ reg ∧ seriesCompatible tag = true) ∧
    (∀ (d : DataFrame α) (s : PSeries α),
      availableIndicators reg (TASource.priceSeries s).typeTag ⊆
        availableIndicators reg (TASource.table d).typeTag) := by
  have hohlc : ∀ name, name ∈ availableIndicators reg .ohlc ↔ ∃ tag, (name, tag) ∈ reg := by
    intro name
    rw [availableIndicators, (List.perm_insertionSort _ _).mem_iff]
    simp only [List.mem_map, List.mem_filter]
    constructor
    · rintro ⟨⟨n, t⟩, ⟨hm, _⟩, rfl⟩
      exact ⟨t, hm⟩
    · rintro ⟨t, hm⟩
      exact ⟨(name, t), ⟨hm, trivial⟩, rfl⟩
  have hseries : ∀ name, name ∈ availableIndicators reg .series ↔
      ∃ tag, (name, tag) ∈ reg ∧ seriesCompatible tag = true := by
    intro name
    rw [availableIndicators, (List.perm_insertionSort _ _).mem_iff]
    simp only [List.mem_map, List.mem_filter]
    constructor
    · rintro ⟨⟨n, t⟩, ⟨hm, hc⟩, rfl⟩
      exact ⟨t, hm, hc⟩
    · rintro ⟨t, hm, hc⟩
      exact ⟨(name, t), ⟨hm, hc⟩, rfl⟩
  refine ⟨fun st => List.sorted_insertionSort _ _, hohlc, hseries, ?_⟩
  intro d s name hmem
  rcases (hseries name).mp hmem with ⟨t, hm, _⟩
  exact (hohlc name).mpr ⟨t, hm⟩

/-- Witness for C7 at a concrete three-unit registry: `KAMA` (series-only)
is available on a series facade, and `AMA` (OHLC) on a table facade. -/
theorem availableIndicators_sorted_compatible_superset_witness :
    (("KAMA", ShapeTag.seriesOnly) ∈
        ([("VPN", ShapeTag.requiresOHLCV), ("AMA", ShapeTag.requiresOHLC),
          ("KAMA", ShapeTag.seriesOnly)] : Registry) ∧
      seriesCompatible ShapeTag.seriesOnly = true) ∧
    "KAMA" ∈ availableIndicators
      [("VPN", ShapeTag.requiresOHLCV), ("AMA", ShapeTag.requiresOHLC),
        ("KAMA", ShapeTag.seriesOnly)] SourceTypeTag.series :=
  ⟨⟨by decide, by decide⟩,
    ((availableIndicators_sorted_compatible_superset (α := ℚ)
      [("VPN", ShapeTag.requiresOHLCV), ("AMA", ShapeTag.requiresOHLC),
        ("KAMA", ShapeTag.seriesOnly)]).2.2.1 "KAMA").mpr
      ⟨ShapeTag.seriesOnly, by decide, by decide⟩⟩

/-! ## Claim C3 -/

/-- Membership in a DataFrame's column names is exactly definedness of
column lookup. -/
theorem col?_isSome_iff (d : DataFrame α) (c : String) :
    (d.col? c).isSome ↔ c ∈ d.colNames := by
  rw [DataFrame.col?, DataFrame.colNames]
  cases hf : d.columns.find? (fun p => p.1 == c) with
  | none =>
    constructor
    · intro h
      simp at h
    · intro hmem
      rcases List.mem_map.mp hmem with ⟨p, hm, hc⟩
      have hnone := List.find?_eq_none.mp hf p hm
      simp [hc] at hnone
  | some p =>
    constructor
    · intro _
      have hmem := List.mem_of_find?_eq_some hf
      have hpc := List.find?_some hf
      simp only [beq_iff_eq] at hpc
      exact List.mem_map.mpr ⟨p, hmem, hpc⟩
    · intro _
      rfl

/-- C3 (amended): validation is eager only for table sources.  For a
DataFrame source, `Indicator.__init__` succeeds exactly when the selected
column exists in the standardized table and the unit's `_validate_columns`
passes, so a shape mismatch on a table is always detected at construction,
before any computation.  For a bare-series source the constructor wraps the
series as a one-column `close` table and never calls `_validate_columns`:
construction succeeds for every contract, even one whose required columns
are absent. -/
theorem indicator_init_eager_only_for_tables (tag : ShapeTag) (df : DataFrame α)
    (s : PSeries α) (column : String) :
    ((∃ st, Indicator_init tag (.dataframe df) column = .ok st) ↔
      (column ∈ (standardize_ohlcv_columns df).colNames ∧
        validateByTag tag column (standardize_ohlcv_columns df).colNames = .ok ())) ∧
    Indicator_init tag (.pyseries s) column =
      .ok ⟨⟨s.index, [("close", s.values)]⟩, s.values, column⟩ := by
  refine ⟨?_, rfl⟩
  cases hcol : (standardize_ohlcv_columns df).col? column with
  | none =>
    have hnm : column ∉ (standardize_ohlcv_columns df).colNames := by
      rw [← col?_isSome_iff, hcol]
      simp
    simp [Indicator_init, hcol, hnm]
  | some sv =>
    have hnm : column ∈ (standardize_ohlcv_columns df).colNames := by
      rw [← col?_isSome_iff, hcol]
      rfl
    cases hval : validateByTag tag column (standardize_ohlcv_columns df).colNames with
    | ok u =>
      cases u
      simp [Indicator_init, hcol, hval, Bind.bind, Except.bind, hnm]
    | error e =>
      simp [Indicator_init, hcol, hval, Bind.bind, Except.bind, hnm]

/-- Counterexample to C3 as stated: a unit with the `RequiresOHLC` contract,
constructed directly from a bare price series, succeeds at construction even
though `open/high/low` are absent from the source — validation is skipped on
the Series branch, so the mismatch would only surface at compute time. -/
theorem indicator_init_series_skips_validation :
    Indicator_init ShapeTag.requiresOHLC
      (.pyseries (⟨[0], [some 1], "p"⟩ : PSeries ℚ)) "close" =
      .ok ⟨⟨[0], [("close", [some 1])]⟩, [some 1], "close"⟩ := rfl

/-- Before the SMA seed index, `KAMA.compute`'s loop never fires: the value
stays the (NaN) seed SMA. -/
theorem kamaRec_warmup_none (sv sc : List (Option α)) (kp : Nat) :
    ∀ i, i + 1 < kp → i < sv.length → kamaRec sv sc (rollingMean kp sv) i = none
  | 0, hw, hn => by
    simp only [kamaRec]
    exact rollingApply_getD_none_of_warmup _ _ _ _ hn hw
  | (j + 1), hw, hn => by
    have ihj := kamaRec_warmup_none sv sc kp j (by omega) (by omega)
    simp only [kamaRec, ihj]
    exact rollingApply_getD_none_of_warmup _ _ _ _ hn hw

/-! ## Claim C4 -/

/-- C4 (amended): both adaptive units run the first-order recursive filter as
a strict left-to-right scan, but their warm-up differs from the claim on the
AMA side.  KAMA is exactly as claimed: NaN strictly before the first valid
SMA window index, seeded there with the simple average, and following
`out[i] = out[i-1] + sc[i]*(price[i] - out[i-1])` whenever the previous
output and the constant are defined.  AMA is seeded at index 0 with the first
raw price (not at the first valid window index); on `1 ≤ i < period` it uses
the previous raw close in place of the previous output, so positions
`1 ≤ i` with `i + 1 < period` are NaN, while position `period - 1` generally
holds a defined value that does not satisfy the output recursion (its
predecessor output is NaN); for `i ≥ period` the recursion holds exactly. -/
theorem adaptive_recursion_shape (d : DataFrame α)
    (period fp sp er_period ema_fast ema_slow kperiod : Nat) (column : String)
    (hc : (d.colD "close").length = (d.colD "high").length)
    (hl : (d.colD "low").length = (d.colD "high").length) :
    (0 < (d.colD "close").length →
      (AMA_compute period fp sp d).values.getD 0 none = (d.colD "close").getD 0 none) ∧
    (∀ i, 1 ≤ i → i < period → i < (d.colD "close").length →
      (AMA_compute period fp sp d).values.getD i none =
        optAdd ((d.colD "close").getD (i - 1) none)
          (optMul ((amaCst period fp sp d).getD i none)
            (optSub ((d.colD "close").getD i none) ((d.colD "close").getD (i - 1) none)))) ∧
    (∀ i, period ≤ i → 1 ≤ i → i < (d.colD "close").length →
      (AMA_compute period fp sp d).values.getD i none =
        optAdd ((AMA_compute period fp sp d).values.getD (i - 1) none)
          (optMul ((amaCst period fp sp d).getD i none)
            (optSub ((d.colD "close").getD i none)
              ((AMA_compute period fp sp d).values.getD (i - 1) none)))) ∧
    (∀ i, 1 ≤ i → i + 1 < period → i < (d.colD "close").length →
      (AMA_compute period fp sp d).values.getD i none = none) ∧
    (∀ i, i + 1 < kperiod → i < (d.colD column).length →
      (KAMA_compute er_period ema_fast ema_slow kperiod d column).values.getD i none =
        none) ∧
    (2 ≤ kperiod → kperiod - 1 < (d.colD column).length →
      (KAMA_compute er_period ema_fast ema_slow kperiod d column).values.getD
          (kperiod - 1) none =
        (rollingMean kperiod (d.colD column)).getD (kperiod - 1) none) ∧
    (∀ i p cs, 1 ≤ i → i < (d.colD column).length →
      (KAMA_compute er_period ema_fast ema_slow kperiod d column).values.getD
        (i - 1) none = some p →
      (kamaSc er_period ema_fast ema_slow (d.colD column)).getD i none = some cs →
      (KAMA_compute er_period ema_fast ema_slow kperiod d column).values.getD i none =
        optAdd (some p) (optMul (some cs)
          (optSub ((d.colD column).getD i none) (some p)))) := by
  have hav : ∀ i, i < (d.colD "close").length →
      (AMA_compute period fp sp d).values.getD i none =
        amaRec period (d.colD "close") (amaCst period fp sp d) i := by
    intro i hi
    simp only [AMA_compute]
    exact getD_map_range _ _ i none hi
  have hkv : ∀ i, i < (d.colD column).length →
      (KAMA_compute er_period ema_fast ema_slow kperiod d column).values.getD i none =
        kamaRec (d.colD column) (kamaSc er_period ema_fast ema_slow (d.colD column))
          (rollingMean kperiod (d.colD column)) i := by
    intro i hi
    simp only [KAMA_compute]
    exact getD_map_range _ _ i none hi
  refine ⟨?_, ?_, ?_, ?_, ?_, ?_, ?_⟩
  · intro hn
    rw [hav 0 hn]
    rfl
  · intro i h1 hp hn
    obtain ⟨j, rfl⟩ : ∃ j, i = j + 1 := ⟨i - 1, by omega⟩
    rw [hav _ hn]
    simp only [amaRec, if_pos hp, Nat.add_sub_cancel]
  · intro i hp h1 hn
    obtain ⟨j, rfl⟩ : ∃ j, i = j + 1 := ⟨i - 1, by omega⟩
    simp only [Nat.add_sub_cancel]
    rw [hav _ hn, hav j (by omega)]
    simp only [amaRec, if_neg (by omega : ¬ j + 1 < period)]
  · intro i h1 hw hn
    obtain ⟨j, rfl⟩ : ∃ j, i = j + 1 := ⟨i - 1, by omega⟩
    rw [hav _ hn]
    simp only [amaRec, if_pos (by omega : j + 1 < period)]
    rw [amaCst_getD_none d period fp sp (j + 1) hc hl (by omega)
      (Or.inl (ama_range_getD_none_of_warmup d period (j + 1) hl (by omega) hw))]
    rw [optMul_none_left, optAdd_none_right]
  · intro i hw hn
    rw [hkv _ hn]
    exact kamaRec_warmup_none _ _ _ i hw hn
  · intro h2 hn
    obtain ⟨j, rfl⟩ : ∃ j, kperiod = j + 2 := ⟨kperiod - 2, by omega⟩
    have hj1 : j + 2 - 1 = j + 1 := by omega
    rw [hj1] at hn ⊢
    rw [hkv _ hn]
    have hprev := kamaRec_warmup_none (d.colD column)
      (kamaSc er_period ema_fast ema_slow (d.colD column)) (j + 2) j (by omega)
      (by omega)
    simp only [kamaRec, hprev]
  · intro i p cs h1 hn hprev hsc
    obtain ⟨j, rfl⟩ : ∃ j, i = j + 1 := ⟨i - 1, by omega⟩
    rw [hkv _ hn]
    rw [Nat.add_sub_cancel, hkv j (by omega)] at hprev
    simp only [kamaRec, hprev, hsc]

/-- A concrete 3-row table with price path 1, 2, 4 (all four price columns
equal per bar), used to probe the AMA warm-up. -/
def amaDf4 : DataFrame ℚ :=
  ⟨[0, 1, 2],
    [("open", [some 1, some 2, some 4]), ("high", [some 1, some 2, some 4]),
      ("low", [some 1, some 2, some 4]), ("close", [some 1, some 2, some 4])]⟩

theorem amaDf4_cst : amaCst 3 2 30 amaDf4 = [none, none, some (4 / 9)] := by
  have hr3 : List.range 3 = [0, 1, 2] := rfl
  have hhigh : amaDf4.colD "high" = [some 1, some 2, some 4] := rfl
  have hlow : amaDf4.colD "low" = [some 1, some 2, some 4] := rfl
  have hclose : amaDf4.colD "close" = [some 1, some 2, some 4] := rfl
  norm_num [amaCst, hhigh, hlow, hclose, hr3, rollingMax, rollingMin, rollingApply,
    rollingCell, seqOpt, listMax, listMin, map2, optSub, optDiv, optAbs, optMul,
    max_def, min_def]

theorem amaDf4_values :
    (AMA_compute 3 2 30 amaDf4).values = [some 1, none, some (26 / 9)] := by
  have hr3 : List.range 3 = [0, 1, 2] := rfl
  have hclose : amaDf4.colD "close" = [some 1, some 2, some 4] := rfl
  norm_num [AMA_compute, hclose, amaDf4_cst, hr3, amaRec, optAdd, optMul, optSub]

/-- Counterexample to C4 as stated, at the 3-row price path 1, 2, 4 with a
3-row lookback: the AMA output holds the defined value 26/9 at index 2 — the
first valid window index — although the previous output is NaN (so the
recursion `out[2] = out[1] + cst[2]*(price[2] - out[1])` yields NaN, not
26/9) and although 26/9 is neither the simple average 7/3 of the window nor
the first raw price 1, so index 2 carries a value the claimed seeding rule
cannot produce, and index 0 carries a defined value before the window is
available. -/
theorem ama_warmup_breaks_claimed_recursion :
    (AMA_compute 3 2 30 amaDf4).values = [some 1, none, some (26 / 9)] ∧
    optAdd ((AMA_compute 3 2 30 amaDf4).values.getD 1 none)
      (optMul ((amaCst 3 2 30 amaDf4).getD 2 none)
        (optSub ((amaDf4.colD "close").getD 2 none)
          ((AMA_compute 3 2 30 amaDf4).values.getD 1 none))) ≠
      (AMA_compute 3 2 30 amaDf4).values.getD 2 none ∧
    (26 / 9 : ℚ) ≠ (1 + 2 + 4) / 3 ∧
    (26 / 9 : ℚ) ≠ 1 := by
  refine ⟨amaDf4_values, ?_, by norm_num, by norm_num⟩
  rw [amaDf4_values, amaDf4_cst]
  simp [optAdd, optMul, optSub]

/-- Witness for the amended C4 at the concrete table `amaDf4`: the seed at
index 0 is the first raw price. -/
theorem adaptive_recursion_shape_witness :
    ((amaDf4.colD "close").length = (amaDf4.colD "high").length ∧
      (amaDf4.colD "low").length = (amaDf4.colD "high").length ∧
      0 < (amaDf4.colD "close").length) ∧
    (AMA_compute 3 2 30 amaDf4).values.getD 0 none =
      (amaDf4.colD "close").getD 0 none :=
  ⟨⟨rfl, rfl, by decide⟩,
    (adaptive_recursion_shape amaDf4 3 2 30 10 2 30 20 "close" rfl rfl).1 (by decide)⟩

/-! ## Claim C5 -/

/-- A concrete 3-row flat table, every price 10 on every bar. -/
def amaDf5 : DataFrame ℚ :=
  ⟨[0, 1, 2],
    [("open", [some 10, some 10, some 10]), ("high", [some 10, some 10, some 10]),
      ("low", [some 10, some 10, some 10]), ("close", [some 10, some 10, some 10])]⟩

theorem amaDf5_cst : amaCst 2 2 30 amaDf5 = [none, none, none] := by
  have hr3 : List.range 3 = [0, 1, 2] := rfl
  have hhigh : amaDf5.colD "high" = [some 10, some 10, some 10] := rfl
  have hlow : amaDf5.colD "low" = [some 10, some 10, some 10] := rfl
  have hclose : amaDf5.colD "close" = [some 10, some 10, some 10] := rfl
  norm_num [amaCst, hhigh, hlow, hclose, hr3, rollingMax, rollingMin, rollingApply,
    rollingCell, seqOpt, listMax, listMin, map2, optSub, optDiv, optAbs, optMul,
    max_def, min_def]

theorem amaDf5_values :
    (AMA_compute 2 2 30 amaDf5).values = [some 10, none, none] := by
  have hr3 : List.range 3 = [0, 1, 2] := rfl
  have hclose : amaDf5.colD "close" = [some 10, some 10, some 10] := rfl
  norm_num [AMA_compute, hclose, amaDf5_cst, hr3, amaRec, optAdd, optMul, optSub]

/-- C5 (amended): on a zero high/low range `AMA.compute` is safe but does
not carry the previous value forward.  A zero rolling range at `i` makes the
smoothing constant NaN (the `.replace(0, np.nan)` guard turns the would-be
zero divisor into NaN, so the division never errors); past the warm-up a NaN
constant makes the output NaN, and a NaN output propagates to every later
output rather than holding the previous value; the 3-row flat table with a
2-row lookback computes (without raising) to `[10, NaN, NaN]`. -/
theorem ama_flat_range_safety (d : DataFrame α) (period fp sp : Nat)
    (hc : (d.colD "close").length = (d.colD "high").length)
    (hl : (d.colD "low").length = (d.colD "high").length) :
    (∀ i, i < (d.colD "high").length →
      (map2 optSub (rollingMax period (d.colD "high"))
        (rollingMin period (d.colD "low"))).getD i none = some 0 →
      (amaCst period fp sp d).getD i none = none) ∧
    (∀ i, period ≤ i → 1 ≤ i → i < (d.colD "close").length →
      (amaCst period fp sp d).getD i none = none →
      (AMA_compute period fp sp d).values.getD i none = none) ∧
    (∀ i, period ≤ i → 1 ≤ i → i < (d.colD "close").length →
      (AMA_compute period fp sp d).values.getD (i - 1) none = none →
      (AMA_compute period fp sp d).values.getD i none = none) ∧
    (AMA_compute 2 2 30 amaDf5).values = [some 10, none, none] := by
  have hav : ∀ i, i < (d.colD "close").length →
      (AMA_compute period fp sp d).values.getD i none =
        amaRec period (d.colD "close") (amaCst period fp sp d) i := by
    intro i hi
    simp only [AMA_compute]
    exact getD_map_range _ _ i none hi
  refine ⟨?_, ?_, ?_, amaDf5_values⟩
  · intro i hi hrng
    exact amaCst_getD_none d period fp sp i hc hl hi (Or.inr hrng)
  · intro i hp h1 hn hcst
    obtain ⟨j, rfl⟩ : ∃ j, i = j + 1 := ⟨i - 1, by omega⟩
    rw [hav _ hn]
    simp only [amaRec, if_neg (by omega : ¬ j + 1 < period), hcst]
    rw [optMul_none_left, optAdd_none_right]
  · intro i hp h1 hn hprev
    obtain ⟨j, rfl⟩ : ∃ j, i = j + 1 := ⟨i - 1, by omega⟩
    simp only [Nat.add_sub_cancel] at hprev
    rw [hav _ hn]
    rw [hav j (by omega)] at hprev
    simp only [amaRec, if_neg (by omega : ¬ j + 1 < period), hprev]
    rw [optAdd_none_left]

/-- Counterexample to C5 as stated: on the flat table the recursive filter
does not carry the seed value 10 forward — the flat-window positions become
NaN (and stay NaN), not the carried previous value. -/
theorem ama_flat_not_carried :
    (AMA_compute 2 2 30 amaDf5).values = [some 10, none, none] ∧
    (AMA_compute 2 2 30 amaDf5).values.getD 1 none ≠ some 10 ∧
    (AMA_compute 2 2 30 amaDf5).values.getD 2 none ≠ some 10 := by
  refine ⟨amaDf5_values, ?_, ?_⟩ <;> rw [amaDf5_values] <;> simp

/-- Witness for the amended C5 at the concrete flat table: the zero range at
index 1 yields a NaN smoothing constant there. -/
theorem ama_flat_range_safety_witness :
    ((amaDf5.colD "close").length = (amaDf5.colD "high").length ∧
      (amaDf5.colD "low").length = (amaDf5.colD "high").length ∧
      1 < (amaDf5.colD "high").length ∧
      (map2 optSub (rollingMax 2 (amaDf5.colD "high"))
        (rollingMin 2 (amaDf5.colD "low"))).getD 1 none = some 0) ∧
    (amaCst 2 2 30 amaDf5).getD 1 none = none := by
  have hrng : (map2 optSub (rollingMax 2 (amaDf5.colD "high"))
      (rollingMin 2 (amaDf5.colD "low"))).getD 1 none = some 0 := by
    have hr3 : List.range 3 = [0, 1, 2] := rfl
    have hhigh : amaDf5.colD "high" = [some 10, some 10, some 10] := rfl
    have hlow : amaDf5.colD "low" = [some 10, some 10, some 10] := rfl
    norm_num [hhigh, hlow, hr3, rollingMax, rollingMin, rollingApply, rollingCell,
      seqOpt, listMax, listMin, map2, optSub, max_def, min_def]
  exact ⟨⟨rfl, rfl, by decide, hrng⟩,
    (ama_flat_range_safety amaDf5 2 2 30 rfl rfl).1 1 (by decide) hrng⟩

/-! ## Claim C8 -/

/-- C8: for every unit, the output is aligned exactly to the input's time
index: the output series/table carries the input's index unchanged (same
keys, same order) and every output column has exactly as many rows as the
index — no row is added or dropped.  (The input is assumed well-formed: each
consumed column as long as the index and at least one row; on an empty table
`AMA.compute` raises in the source rather than returning anything.) -/
theorem output_index_preserved (d : DataFrame α) (sqrtF : α → α) (column : String)
    (p1 f1 s1 pe pf ps pg pk1 pk2 pk3 pk4 mf ms vp ve vm : Nat) (mult : α)
    (hn : 0 < d.index.length)
    (hh : (d.colD "high").length = d.index.length)
    (hl : (d.colD "low").length = d.index.length)
    (hc : (d.colD "close").length = d.index.length)
    (hv : (d.colD "volume").length = d.index.length)
    (hcol : (d.colD column).length = d.index.length) :
    ((AMA_compute p1 f1 s1 d).index = d.index ∧
      (AMA_compute p1 f1 s1 d).values.length = d.index.length) ∧
    ((KAMA_compute pk1 pk2 pk3 pk4 d column).index = d.index ∧
      (KAMA_compute pk1 pk2 pk3 pk4 d column).values.length = d.index.length) ∧
    ((MABW_compute sqrtF mf ms mult d column).index = d.index ∧
      ∀ c ∈ (MABW_compute sqrtF mf ms mult d column).columns,
        c.2.length = d.index.length) ∧
    ((STOCH_MACD_compute pe pf ps pg d).index = d.index ∧
      ∀ c ∈ (STOCH_MACD_compute pe pf ps pg d).columns,
        c.2.length = d.index.length) ∧
    ((VPN_compute vp ve vm d).index = d.index ∧
      ∀ c ∈ (VPN_compute vp ve vm d).columns, c.2.length = d.index.length) := by
  refine ⟨⟨rfl, ?_⟩, ⟨rfl, ?_⟩, ⟨rfl, ?_⟩, ⟨rfl, ?_⟩, ⟨rfl, ?_⟩⟩
  · simp [AMA_compute, hc]
  · simp [KAMA_compute, hcol]
  · intro c hcmem
    simp only [MABW_compute, List.mem_cons, List.not_mem_nil, or_false] at hcmem
    rcases hcmem with h | h | h | h | h <;> subst h <;>
      simp [length_map2, length_ewmMean, length_rollingApply, rollingMean, rollingMin,
        List.length_map, hcol]
  · intro c hcmem
    simp only [STOCH_MACD_compute, List.mem_cons, List.not_mem_nil, or_false] at hcmem
    rcases hcmem with h | h <;> subst h <;>
      simp [length_map2, length_ewmMean, length_rollingApply, rollingMax, rollingMin,
        List.length_map, hh, hl, hc]
  · intro c hcmem
    simp only [VPN_compute, List.mem_cons, List.not_mem_nil, or_false] at hcmem
    rcases hcmem with h | h <;> subst h <;>
      simp [length_map2, length_map2Gate, length_ewmMean, length_rollingApply,
        length_diff1, rollingMean, rollingSum, TP_compute, ATR_compute, trueRange,
        List.length_map, List.length_range, hh, hl, hc, hv]

/-- Witness for C8 at a concrete one-row OHLCV table. -/
theorem output_index_preserved_witness :
    (0 < ([7] : List Nat).length ∧
      ((⟨[7], [("open", [some (1:ℚ)]), ("high", [some 2]), ("low", [some 1]),
        ("close", [some 2]), ("volume", [some 5])]⟩ : DataFrame ℚ).colD "close").length =
        ([7] : List Nat).length) ∧
    (AMA_compute 10 2 30 (⟨[7], [("open", [some (1:ℚ)]), ("high", [some 2]),
      ("low", [some 1]), ("close", [some 2]), ("volume", [some 5])]⟩ : DataFrame ℚ)).index =
      [7] :=
  ⟨⟨by decide, by decide⟩,
    (output_index_preserved (α := ℚ)
      ⟨[7], [("open", [some 1]), ("high", [some 2]), ("low", [some 1]),
        ("close", [some 2]), ("volume", [some 5])]⟩ (fun x => x) "close"
      10 2 30 45 12 26 9 10 2 30 20 10 50 30 3 30 1
      (by decide) (by decide) (by decide) (by decide) (by decide) (by decide)).1.1⟩

/-- Witness for the amended C3 at a concrete table holding all four OHLC
columns: construction of an OHLC-contract unit succeeds. -/
theorem indicator_init_eager_only_for_tables_witness :
    ("close" ∈ (standardize_ohlcv_columns
        (⟨[0], [("open", [some (1:ℚ)]), ("high", [some 1]), ("low", [some 1]),
          ("close", [some 1])]⟩ : DataFrame ℚ)).colNames ∧
      validateByTag ShapeTag.requiresOHLC "close"
        (standardize_ohlcv_columns
          (⟨[0], [("open", [some (1:ℚ)]), ("high", [some 1]), ("low", [some 1]),
            ("close", [some 1])]⟩ : DataFrame ℚ)).colNames = .ok ()) ∧
    (∃ st, Indicator_init ShapeTag.requiresOHLC
      (.dataframe (⟨[0], [("open", [some (1:ℚ)]), ("high", [some 1]), ("low", [some 1]),
        ("close", [some 1])]⟩ : DataFrame ℚ)) "close" = .ok st) :=
  ⟨⟨by decide, rfl⟩,
    (indicator_init_eager_only_for_tables ShapeTag.requiresOHLC _
      ⟨[0], [some 1], "p"⟩ "close").1.mpr ⟨by decide, rfl⟩⟩

/-! ## Claim C10 -/

/-- A concrete 2-row real-valued close series 0, 4 for probing the MABW
bands with `fast_period = 1`, `slow_period = 3`, `multiplier = 1/2`. -/
def mabwDf : DataFrame ℝ := ⟨[0, 1], [("close", [some 0, some 4])]⟩

/-- C10: wherever the MABW upper band is defined, the lower band is too, the
two sum to exactly twice the slow EMA and the lower band lies below the upper
(the offset is a square root scaled by the nonnegative multiplier, hence
nonnegative); the `MAB_MIDDLE` output is exactly the fast EMA — and therefore
need not lie between the bands: on the concrete series 0, 4 with
`fast_period = 1`, `slow_period = 3`, `multiplier = 1/2` and the real square
root, the middle at index 1 is 4 while the upper band is 10/3 < 4. -/
theorem mabw_bands_centered (sqrtF : α → α) (fast slow : Nat) (mult : α)
    (d : DataFrame α) (column : String)
    (hsqrt : ∀ x, 0 ≤ sqrtF x) (hmult : 0 ≤ mult) :
    (∀ i u, ((MABW_compute sqrtF fast slow mult d column).colD "MAB_UPPER").getD i none =
        some u →
      ∃ l m, ((MABW_compute sqrtF fast slow mult d column).colD "MAB_LOWER").getD i none =
          some l ∧
        (ewmMean slow (d.colD column)).getD i none = some m ∧
        u + l = 2 * m ∧ l ≤ u) ∧
    (MABW_compute sqrtF fast slow mult d column).colD "MAB_MIDDLE" =
      ewmMean fast (d.colD column) ∧
    ((MABW_compute Real.sqrt 1 3 (1 / 2 : ℝ) mabwDf "close").colD "MAB_MIDDLE").getD 1
        none = some 4 ∧
    ((MABW_compute Real.sqrt 1 3 (1 / 2 : ℝ) mabwDf "close").colD "MAB_UPPER").getD 1
        none = some (10 / 3) ∧
    ¬ ((4 : ℝ) ≤ 10 / 3) := by
  have hnn : ∀ x ∈ (((rollingMean fast ((map2 optSub (ewmMean slow (d.colD column))
        (ewmMean fast (d.colD column))).map (fun o => optMul o o))).map
        (Option.map sqrtF)).map (Option.map (fun q => q * mult))),
      ∀ y, x = some y → 0 ≤ y := by
    intro x hx y hxy
    rcases List.mem_map.mp hx with ⟨x1, hx1, rfl⟩
    rcases List.mem_map.mp hx1 with ⟨x2, hx2, rfl⟩
    cases x2 with
    | none => simp at hxy
    | some r =>
      simp only [Option.map_some'] at hxy
      rcases hxy with ⟨rfl⟩
      exact mul_nonneg (hsqrt r) hmult
  refine ⟨?_, rfl, ?_, ?_, by norm_num⟩
  · intro i u hu
    exact bands_centered_abstract _ _ i u hnn hu
  · -- middle at index 1 on the concrete data is the fast EMA value 4
    have hcv : mabwDf.colD "close" = [some (0 : ℝ), some 4] := rfl
    have hmf : ewmMean 1 (mabwDf.colD "close") = [some (0 : ℝ), some 4] := by
      rw [hcv]
      norm_num [ewmMean, ewmMeanGo]
    have hbm : (MABW_compute Real.sqrt 1 3 (1 / 2 : ℝ) mabwDf "close").colD
        "MAB_MIDDLE" = ewmMean 1 (mabwDf.colD "close") := rfl
    rw [hbm, hmf]
    rfl
  · -- upper band at index 1 on the concrete data is 8/3 + 2/3 = 10/3
    have hcv : mabwDf.colD "close" = [some (0 : ℝ), some 4] := rfl
    have hms : ewmMean 3 (mabwDf.colD "close") = [some (0 : ℝ), some (8 / 3)] := by
      rw [hcv]
      norm_num [ewmMean, ewmMeanGo]
    have hmf : ewmMean 1 (mabwDf.colD "close") = [some (0 : ℝ), some 4] := by
      rw [hcv]
      norm_num [ewmMean, ewmMeanGo]
    have hdst : map2 optSub (ewmMean 3 (mabwDf.colD "close"))
        (ewmMean 1 (mabwDf.colD "close")) = [some (0 : ℝ), some (-(4 / 3))] := by
      rw [hms, hmf]
      norm_num [map2, optSub]
    have hsq : (map2 optSub (ewmMean 3 (mabwDf.colD "close"))
        (ewmMean 1 (mabwDf.colD "close"))).map (fun o => optMul o o) =
        [some (0 : ℝ), some (16 / 9)] := by
      rw [hdst]
      norm_num [optMul]
    have hr2 : List.range 2 = [0, 1] := rfl
    have hrm : rollingMean 1 ((map2 optSub (ewmMean 3 (mabwDf.colD "close"))
        (ewmMean 1 (mabwDf.colD "close"))).map (fun o => optMul o o)) =
        [some (0 : ℝ), some (16 / 9)] := by
      rw [hsq]
      norm_num [rollingMean, rollingApply, rollingCell, seqOpt, hr2]
    have hs169 : Real.sqrt (16 / 9) = 4 / 3 := by
      rw [show (16 / 9 : ℝ) = (4 / 3) ^ 2 by norm_num, Real.sqrt_sq (by norm_num)]
    have hdv : (rollingMean 1 ((map2 optSub (ewmMean 3 (mabwDf.colD "close"))
        (ewmMean 1 (mabwDf.colD "close"))).map (fun o => optMul o o))).map
        (Option.map Real.sqrt) = [some (0 : ℝ), some (4 / 3)] := by
      rw [hrm]
      simp [hs169]
    have hdev : ((rollingMean 1 ((map2 optSub (ewmMean 3 (mabwDf.colD "close"))
        (ewmMean 1 (mabwDf.colD "close"))).map (fun o => optMul o o))).map
        (Option.map Real.sqrt)).map (Option.map (fun q => q * (1 / 2))) =
        [some (0 : ℝ), some (2 / 3)] := by
      rw [hdv]
      norm_num
    have hupper : map2 optAdd (ewmMean 3 (mabwDf.colD "close"))
        (((rollingMean 1 ((map2 optSub (ewmMean 3 (mabwDf.colD "close"))
          (ewmMean 1 (mabwDf.colD "close"))).map (fun o => optMul o o))).map
          (Option.map Real.sqrt)).map (Option.map (fun q => q * (1 / 2)))) =
        [some (0 : ℝ), some (10 / 3)] := by
      rw [hdev, hms]
      norm_num [map2, optAdd]
    have hbu : (MABW_compute Real.sqrt 1 3 (1 / 2 : ℝ) mabwDf "close").colD
        "MAB_UPPER" = map2 optAdd (ewmMean 3 (mabwDf.colD "close"))
        (((rollingMean 1 ((map2 optSub (ewmMean 3 (mabwDf.colD "close"))
          (ewmMean 1 (mabwDf.colD "close"))).map (fun o => optMul o o))).map
          (Option.map Real.sqrt)).map (Option.map (fun q => q * (1 / 2)))) := rfl
    rw [hbu, hupper]
    rfl

/-- Witness for C10: the nonnegativity hypotheses hold for the rational
absolute value as the square root at multiplier 1, and the middle band equals
the fast EMA there. -/
theorem mabw_bands_centered_witness :
    ((0 : ℚ) ≤ 1 ∧ (0 : ℚ) ≤ |(-2 : ℚ)|) ∧
    (MABW_compute (fun x : ℚ => |x|) 10 50 1
        (⟨[0], [("close", [some 3])]⟩ : DataFrame ℚ) "close").colD "MAB_MIDDLE" =
      ewmMean 10 ((⟨[0], [("close", [some (3:ℚ)])]⟩ : DataFrame ℚ).colD "close") :=
  ⟨⟨by norm_num, abs_nonneg _⟩,
    (mabw_bands_centered (fun x : ℚ => |x|) 10 50 1
      (⟨[0], [("close", [some 3])]⟩ : DataFrame ℚ) "close"
      (fun x => abs_nonneg x) (by norm_num)).2.1⟩

end Talib
